import Mathlib

/-!
# Verification of the Region Synchronization Engine
(cdalvaro/machine-learning-master-thesis)

Shallow embedding of the components of the repository that synchronize
Gaia DR2 star records into the local relational store, together with
proofs about them.

The repository contains two parallel implementations of the engine:

* `code/cdalvaro` — psycopg2-based (`data_base.py`, `downloaders/gaia/gaia.py`);
* `src/cdalvaro`  — sqlalchemy-based (`data_base.py`, `downloaders/gaia/gaia.py`).

Definitions below are suffixed `_code` / `_src` when the two versions
differ; unsuffixed definitions model behaviour shared by both.

Modelling conventions:
* Python floats (degrees, sizes) are modelled as `ℚ`;
* `source_id` values are modelled as `ℕ`;
* Python exceptions are modelled with `Except PyError`;
* Python duck typing (`hasattr(region, diam)`) is modelled by `Option`
  fields on `Region` (`diam.isSome` ↔ the attribute is present).
-/

/-- Python exceptions raised by the modelled code paths. -/
inductive PyError
  | valueError (msg : String)    -- ValueError (Region.__init__)
  | attributeError               -- AttributeError (missing attribute access)
  | typeError                    -- TypeError (bad call signature)
  | uniqueViolation              -- psycopg2 / sqlalchemy unique-key IntegrityError
  deriving Repr, DecidableEq

/-- Opaque region properties, serialized by the persistence layer
(`properties` JSON column: `g1_class`, `trumpler`, … for `OpenCluster`). -/
abbrev Props := List (String × String)

/-- `models/region.py` `Region`.  Attribute presence is modelled with
`Option`: the Python constructor sets *either* `self.diam` *or*
`self.height`/`self.width`, so a missing attribute is `none` here.
`properties` carries the opaque property set that `DB.save_regions`
derives from the region (empty for a plain `Region`). -/
structure Region where
  name : String
  ra : ℚ                 -- coords.ra.degree
  dec : ℚ                -- coords.dec.degree
  diam : Option ℚ        -- degrees
  width : Option ℚ       -- degrees
  height : Option ℚ      -- degrees
  properties : Props
  serial : Option ℕ
  deriving Repr, DecidableEq

namespace Region

/-- `models/region.py` `Region.__init__` (code/cdalvaro/models/region.py,
lines 26–48).  Follows the branch structure of the source:

```python
if diam is None and (height is None or width is None):
    raise ValueError(...)
elif diam is not None:
    if not (height is None and width is None):
        raise ValueError(...)
    self.diam = diam
else:
    if height is None or width is None:
        raise ValueError(...)
    self.height = height
    self.width = width
```
-/
def init (name : String) (ra dec : ℚ) (diam height width : Option ℚ)
    (serial : Option ℕ) : Except PyError Region :=
  if diam = none ∧ (height = none ∨ width = none) then
    .error (.valueError "You must specify diam argument or height and width arguments")
  else if diam ≠ none then
    if ¬(height = none ∧ width = none) then
      .error (.valueError "You cannot specify diam with height or width arguments")
    else
      .ok ⟨name, ra, dec, diam, none, none, [], serial⟩
  else
    if height = none ∨ width = none then
      .error (.valueError "You must specify both height and width arguments")
    else
      .ok ⟨name, ra, dec, none, width, height, [], serial⟩

end Region

/-! ## Spatial Query Builder (`Gaia._compose_query`, both versions) -/

namespace Gaia

/-- How the exclusion set is expressed in the composed ADQL query.
`tempTableJoin regionName` stands for the `LEFT JOIN … ON A.source_id =
B.source_id WHERE B.source_id IS NULL` anti-join against the uploaded
temporary table whose name is derived from the MD5 digest of the region
name (the digest itself is not modelled; the clause carries the region
name it is derived from). -/
inductive ExclusionClause
  | noExclusion                         -- plain WHERE, no exclusion predicate
  | tempTableJoin (regionName : String) -- anti-join against the uploaded temp table
  | inlineNotIn (ids : Finset ℕ)        -- WHERE source_id NOT IN (id, id, …)
  deriving DecidableEq

/-- The spatial containment predicate of the composed query. -/
inductive SpatialClause
  | circle (ra dec radius : ℚ)          -- 1 = CONTAINS(POINT(A.ra,A.dec), CIRCLE(ra,dec,radius))
  | box (ra dec width height : ℚ)       -- 1 = CONTAINS(POINT(A.ra,A.dec), BOX(ra,dec,width,height))
  deriving Repr, DecidableEq

/-- Structured form of the query string built by `Gaia._compose_query`. -/
structure ComposedQuery where
  top : Option ℕ                        -- SELECT TOP n (src only; code has a plain SELECT)
  exclusion : ExclusionClause
  spatial : SpatialClause
  orderBySourceIdAsc : Bool             -- ORDER BY A.source_id ASC
  deriving DecidableEq

/-- The spatial part of `_compose_query` (identical in both versions):

```python
if hasattr(region, diam):
    radius = region.diam.to_value(u.degree) * extra_size / 2.0
    ... CIRCLE(ICRS, ra, dec, radius) ...
else:
    width = region.width.to_value(u.degree) * extra_size
    height = region.height.to_value(u.degree) * extra_size
    ... BOX(ICRS, ra, dec, width, height) ...
```

When `diam` is absent and `width`/`height` is also absent the attribute
access raises `AttributeError`. -/
def spatialClause (region : Region) (extraSize : ℚ) : Except PyError SpatialClause :=
  match region.diam with
  | some diam => .ok (.circle region.ra region.dec (diam * extraSize / 2))
  | none =>
    match region.width, region.height with
    | some w, some h => .ok (.box region.ra region.dec (w * extraSize) (h * extraSize))
    | _, _ => .error .attributeError

/-- `src/cdalvaro/downloaders/gaia/gaia.py` `Gaia._compose_query`
(lines 138–206).  `SELECT TOP partition_size` when `partition_size` is
set; whenever `exclude` is non-empty a temporary table named
`cdalvaro_<md5(region.name)>` is prepared and anti-joined through
`tap_upload` — independently of whether the session is authenticated;
there is no inline `NOT IN` fallback in this version. -/
def compose_query_src (partitionSize : Option ℕ) (region : Region) (extraSize : ℚ)
    (exclude : Finset ℕ) : Except PyError ComposedQuery :=
  match spatialClause region extraSize with
  | .error e => .error e
  | .ok spatial =>
    .ok { top := partitionSize
          exclusion := if 0 < exclude.card then .tempTableJoin region.name else .noExclusion
          spatial := spatial
          orderBySourceIdAsc := true }

/-- `code/cdalvaro/downloaders/gaia/gaia.py` `Gaia._compose_query`
(lines 114–194).  No `TOP` clause; a non-empty `exclude` is uploaded as
a remote temporary table only when the session is authenticated
(`self._logged`), otherwise it is expressed as an inline
`WHERE source_id NOT IN (…)` predicate. -/
def compose_query_code (logged : Bool) (region : Region) (extraSize : ℚ)
    (exclude : Finset ℕ) : Except PyError ComposedQuery :=
  match spatialClause region extraSize with
  | .error e => .error e
  | .ok spatial =>
    .ok { top := none
          exclusion :=
            if 0 < exclude.card then
              if logged then .tempTableJoin region.name
              else .inlineNotIn exclude
            else .noExclusion
          spatial := spatial
          orderBySourceIdAsc := true }

/-! ## Remote-call traces of a single fetch (`_download_stars` /
`_download_partition`) -/

/-- Remote service calls issued while downloading one partition/region.
Temporary-table events carry the region name the table name is derived
from (`temp_table_<md5(name)>` in code/, `cdalvaro_<md5(name)>` in src/). -/
inductive GaiaEvent
  | uploadTable (regionName : String)   -- gaia.Gaia.upload_table / upload_resource sent with the job
  | launchJob                           -- gaia.Gaia.launch_job_async
  | deleteTable (regionName : String)   -- gaia.Gaia.delete_user_table
  | removeJob                           -- gaia.Gaia.remove_jobs
  deriving Repr, DecidableEq

/-- Failure injections for a single fetch. -/
structure FetchEnv where
  logged : Bool            -- self._logged
  excludeNonempty : Bool   -- len(exclude) > 0
  uploadFails : Bool       -- gaia.Gaia.upload_table raises (code/ only)
  launchFails : Bool       -- launch_job_async raises (job never assigned)
  resultsFails : Bool      -- job.get_results raises (job assigned)
  removeJobs : Bool        -- self.remove_jobs flag (src only)
  deriving Repr, DecidableEq

/-- The fetch succeeds when neither the job launch nor retrieving the
results raised. -/
def fetchSucceeds (env : FetchEnv) : Bool := !env.launchFails && !env.resultsFails

/-- In the code/ version a remote temporary exclusion table is created
iff the exclusion set is non-empty, the session is authenticated and the
upload succeeds (`_compose_query`, lines 138–161). -/
def tableCreated_code (env : FetchEnv) : Bool :=
  env.excludeNonempty && env.logged && !env.uploadFails

/-- `code/cdalvaro/downloaders/gaia/gaia.py` `Gaia._download_stars`
(lines 76–112) as a trace of remote calls plus a success flag:

* `_compose_query` uploads the temp table when `exclude ≠ ∅` and logged;
  if the upload raises, `_compose_query` re-raises and no table exists
  (the `finally` block of the caller then finds `temp_table` unbound);
* the job is launched; on any error the `except` block logs and the
  function returns `None` — but the `finally` block always runs first
  and deletes the temp table when one was created;
* only on success does the job-removal block run (best effort). -/
def download_stars_code (env : FetchEnv) (regionName : String) : List GaiaEvent × Bool :=
  if env.excludeNonempty && env.logged && env.uploadFails then
    ([], false)   -- upload_table raised inside _compose_query: no table created, fetch fails
  else
    ((if tableCreated_code env then [GaiaEvent.uploadTable regionName] else []) ++
       [GaiaEvent.launchJob] ++
       (if tableCreated_code env then [GaiaEvent.deleteTable regionName] else []) ++
       (if fetchSucceeds env then [GaiaEvent.removeJob] else []),
     fetchSucceeds env)

/-- `src/cdalvaro/downloaders/gaia/gaia.py` `Gaia._download_partition`
(lines 105–136) as a trace of remote calls plus a success flag.  The
temporary exclusion table travels with the job (`launch_job_async(query,
upload_resource=temp_table, upload_table_name=…)`); no
`delete_user_table` call exists in this version.  The `finally` block
removes the *job* — and only when `self._logged and self.remove_jobs`
and the job object exists (launch succeeded far enough to assign it). -/
def download_partition_src (env : FetchEnv) (regionName : String) : List GaiaEvent × Bool :=
  ((if env.excludeNonempty then [GaiaEvent.uploadTable regionName] else []) ++
     [GaiaEvent.launchJob] ++
     (if !env.launchFails && env.logged && env.removeJobs then [GaiaEvent.removeJob] else []),
   fetchSucceeds env)

end Gaia

/-! ## Persistence layer (`data_base.py`, both versions) -/

namespace DB

/-- One row of the `gaiadr2_source` relation, reduced to its composite
key `(region_id, source_id)` plus an opaque payload standing for the ~90
astrometric/photometric columns. -/
structure StarRow where
  region_id : ℕ
  source_id : ℕ
  payload : ℤ
  deriving Repr, DecidableEq

/-- The key of a `StarRow` already occurs in the table. -/
def hasStarKey (table : List StarRow) (regionId sourceId : ℕ) : Bool :=
  table.any fun r => r.region_id = regionId && r.source_id = sourceId

/-- `code/cdalvaro/data_base.py` `DB.save_stars` (lines 327–378):

```sql
INSERT INTO public.gaiadr2_source (…)
VALUES %s ON CONFLICT (region_id, source_id) DO NOTHING
```

Each star of the batch is stamped with the region serial and inserted;
a row whose `(region_id, source_id)` key already exists is silently
skipped and the existing row is left untouched. -/
def save_stars_code (table : List StarRow) (serial : ℕ) (stars : List (ℕ × ℤ)) :
    List StarRow :=
  stars.foldl
    (fun t star =>
      if hasStarKey t serial star.1 then t
      else t ++ [⟨serial, star.1, star.2⟩])
    table

/-- `src/cdalvaro/data_base.py` `DB.save_stars` (lines 327–350): the
batch is appended with `DataFrame.to_sql(gaiadr2_source,
if_exists=append, …)` after indexing by `(region_id, source_id)`.
There is no conflict handling: if any row of the batch collides with an
existing key (or the batch repeats a key), the INSERT violates the
primary key, the statement raises and is rolled back, and the method
re-raises; otherwise all rows are appended. -/
def save_stars_src (table : List StarRow) (serial : ℕ) (stars : List (ℕ × ℤ)) :
    Except PyError (List StarRow) :=
  let rows := stars.map fun star => StarRow.mk serial star.1 star.2
  if rows.any (fun r => hasStarKey table r.region_id r.source_id) ∨
      ¬(rows.map fun r => (r.region_id, r.source_id)).Nodup then
    .error .uniqueViolation
  else
    .ok (table ++ rows)

/-- `DB.get_stars_source_id` (code/ lines 117–147, src/ lines 104–132):
the set of `source_id`s of every star stored for the region with the
given serial.  Both versions run a `SELECT source_id FROM
gaiadr2_source WHERE region_id = …` and return the result as a Python
`set`. -/
def get_stars_source_id (table : List StarRow) (serial : ℕ) : Finset ℕ :=
  ((table.filter fun r => r.region_id = serial).map fun r => r.source_id).toFinset

/-- One row of the `regions` relation (serial id, unique name,
coordinates, shape columns, opaque properties). -/
structure RegionRow where
  id : ℕ
  name : String
  ra : ℚ
  dec : ℚ
  diam : Option ℚ
  width : Option ℚ
  height : Option ℚ
  properties : Props
  deriving Repr, DecidableEq

/-- The `regions` relation together with its serial-id generator. -/
structure RegionsTable where
  rows : List RegionRow
  nextId : ℕ
  deriving Repr, DecidableEq

/-- The upsert both versions issue for one region
(`code/data_base.py` lines 293–298, `src/data_base.py` lines 309–319):

```sql
INSERT INTO public.regions (name, ra, dec, diam, properties)
VALUES %s ON CONFLICT (name) DO UPDATE SET properties = EXCLUDED.properties
RETURNING id
```

On conflict only the `properties` column of the existing row is
rewritten (`name` is unique, so at most one row matches); the returned
id is the existing serial of the conflicting row.  On a fresh insert the
`width`/`height` columns are left NULL and a new serial is assigned. -/
def upsertRegionRow (tbl : RegionsTable) (name : String) (ra dec diam : ℚ)
    (properties : Props) : RegionsTable × ℕ :=
  match tbl.rows.find? (fun r => r.name = name) with
  | some existing =>
    (⟨tbl.rows.map fun r =>
        if r.name = name then { r with properties := properties } else r,
      tbl.nextId⟩,
     existing.id)
  | none =>
    (⟨tbl.rows ++ [⟨tbl.nextId, name, ra, dec, some diam, none, none, properties⟩],
      tbl.nextId + 1⟩,
     tbl.nextId)

/-- `DB.save_regions` for the singleton call `save_regions([region])`
issued by the downloader (`code/data_base.py` lines 283–325,
`src/data_base.py` lines 284–325).  Both versions build the row to
insert as

```python
entry = dict(name=region.name, ra=…, dec=…, diam=region.diam.value, …)
```

reading `region.diam` unconditionally: a region constructed with
`width`/`height` has no `diam` attribute, so this access raises
`AttributeError` before any database statement runs and nothing is
persisted.  Otherwise the upsert runs and the returned serial is
assigned to the in-memory region (`region.serial = …`). -/
def save_regions (tbl : RegionsTable) (region : Region) :
    Except PyError (RegionsTable × Region) :=
  match region.diam with
  | none => .error .attributeError       -- region.diam.value raises AttributeError
  | some d =>
    .ok ((upsertRegionRow tbl region.name region.ra region.dec d region.properties).1,
         { region with
             serial :=
               some (upsertRegionRow tbl region.name region.ra region.dec d
                       region.properties).2 })

/-- Reconstruction of one `regions` row performed by `DB.get_regions`
(`src/data_base.py` lines 171–185, identical logic in `code/` lines
189–203):

```python
if diam is not None:
    properties = dict(diam=…)
else:
    properties = dict(width=…, height=…)
catalogue[name] = Region(name=name, coords=coords, **properties)
```
-/
def regionFromRow (row : RegionRow) : Except PyError Region :=
  match row.diam with
  | some d => Region.init row.name row.ra row.dec (some d) none none none
  | none => Region.init row.name row.ra row.dec none row.height row.width none

end DB

namespace Gaia

/-- `src/cdalvaro/downloaders/gaia/gaia.py` `Gaia._save_stars`
(lines 208–225) issues

```python
self.db.save_stars(region=region, stars=stars, columns=stars.columns)
```

but `DB.save_stars` in `src/cdalvaro/data_base.py` is declared as
`def save_stars(self, region, stars)` and accepts no `columns` keyword,
so the call raises `TypeError` before any row reaches the store.  The
surrounding `try`/`except` logs and swallows the error, leaving the
table unchanged.  (The call in the `code/` pipeline matches its own
`save_stars(self, region, stars, columns)` signature and is fine.) -/
def save_stars_call_src (table : List DB.StarRow) (serial : ℕ) (stars : List (ℕ × ℤ)) :
    List DB.StarRow × Option PyError :=
  (table, some .typeError)

/-! ## Partitioned download loop (`src/…/gaia.py` `Gaia._download_and_save`)

`remote` is the Gaia-side content relevant to one region: the ascending
list of `source_id`s of all rows satisfying the spatial predicate of
the region (the composed query ends in `ORDER BY A.source_id ASC`, see
`compose_query_src`).  A fetch executes the query

`SELECT TOP P … WHERE source_id ∉ exclusion … ORDER BY source_id ASC`,

i.e. it returns the first `P` matching identifiers not in the exclusion
set. -/

/-- The rows returned by one `_download_partition` fetch. -/
def fetchPartition (remote : List ℕ) (exclude : Finset ℕ) (P : ℕ) : List ℕ :=
  (remote.filter fun s => s ∉ exclude).take P

/-- `Gaia._download_and_save` (src/…/gaia.py lines 75–103), fuel-indexed:

```python
downloaded_ids = exclude.copy()
while True:
    stars = self._download_partition(region, …, exclude=downloaded_ids)
    if stars is not None and len(stars) > 0:
        downloaded_ids |= set(stars[source_id])
        self._save_stars(region=region, stars=stars)
        if len(stars) < Gaia.partition_size:
            break
    else:
        break
```

The result is `(submitted, sizes)` where `submitted` is the union of
the batches handed to `_save_stars` across the loop and `sizes` lists
the row count returned by each fetch, in order (one entry per query
issued, including a final fetch of zero rows when one occurs).  `fuel`
bounds the number of iterations; `syncRegion` below supplies enough
fuel for the loop to reach its `break`. -/
def syncLoop (remote : List ℕ) (P : ℕ) :
    ℕ → Finset ℕ → Finset ℕ → Finset ℕ × List ℕ
  | 0, _, submitted => (submitted, [])
  | fuel + 1, downloaded, submitted =>
    if (fetchPartition remote downloaded P).length = 0 then
      (submitted, [0])
    else if (fetchPartition remote downloaded P).length < P then
      (submitted ∪ (fetchPartition remote downloaded P).toFinset,
       [(fetchPartition remote downloaded P).length])
    else
      ((syncLoop remote P fuel
          (downloaded ∪ (fetchPartition remote downloaded P).toFinset)
          (submitted ∪ (fetchPartition remote downloaded P).toFinset)).1,
       (fetchPartition remote downloaded P).length ::
         (syncLoop remote P fuel
            (downloaded ∪ (fetchPartition remote downloaded P).toFinset)
            (submitted ∪ (fetchPartition remote downloaded P).toFinset)).2)

/-- One region synchronization run: `_download_and_save(region, …,
exclude=source_ids)` where `exclude` is the set returned by
`DB.get_stars_source_id` for the region.  `remote.length + 1`
iterations always suffice (each non-final iteration consumes at least
`P ≥ 1` fresh identifiers). -/
def syncRegion (remote : List ℕ) (P : ℕ) (exclude : Finset ℕ) : Finset ℕ × List ℕ :=
  syncLoop remote P (remote.length + 1) exclude ∅

/-! ## Synchronization orchestrator (`Gaia.download_and_save`) -/

/-- Log/lifecycle events observable from `download_and_save`. -/
inductive SyncEvent
  | startRegion (name : String)           -- "(i / n) Downloading <region> stars …"
  | regionError (name : String) (cause : String)  -- logger.error at the region boundary
  | loggedOut                             -- self._logout() after the loop
  deriving Repr, DecidableEq

/-- `Gaia.download_and_save` (src/…/gaia.py lines 44–73; the `code/`
version lines 43–74 has the same shape): each region is processed inside
`try: … except Exception as error: logger.error(…)`, so a failing
region only contributes an error log entry and the loop moves on; after
the loop `self._logout()` always runs.  `runRegion` abstracts the body
of the `try` block (`get_stars_source_id` + `_download_and_save`),
returning the error message it raises, if any. -/
def download_and_save (regions : List Region) (runRegion : Region → Except String Unit) :
    List SyncEvent :=
  (regions.flatMap fun r =>
      SyncEvent.startRegion r.name ::
        (match runRegion r with
         | .ok _ => []
         | .error cause => [SyncEvent.regionError r.name cause])) ++
    [SyncEvent.loggedOut]

end Gaia


/-! ## Concrete sample data used by witnesses and counterexamples -/

/-- A circular region: the Pleiades, `diam` 2° (already converted to
degrees), as the OPENCLUST loader would construct it. -/
def M45 : Region := ⟨"M45", 567/10, 241/10, some 2, none, none, [], none⟩

/-- A rectangular region (`width`/`height` given, no `diam` attribute). -/
def NGC7000 : Region := ⟨"NGC 7000", 3129/10, 443/10, none, some 2, some (7/4), [], none⟩

/-- A stored `regions` row named like `NGC7000`, with serial id 3. -/
def sampleRegionRow : DB.RegionRow :=
  ⟨3, "NGC 7000", 3129/10, 443/10, some 5, none, none, [("g1_class", "A")]⟩

/-- A one-row `regions` table whose next serial is 4. -/
def sampleRegionsTable : DB.RegionsTable := ⟨[sampleRegionRow], 4⟩

/-- A circular region carrying the same name as `sampleRegionRow` but
different coordinates, shape and properties. -/
def NGC7000circ : Region := ⟨"NGC 7000", 1, 2, some 3, none, none, [("g1_class", "B")], none⟩

/-! ## Helper lemmas for the partitioned download loop -/

namespace Gaia

lemma filter_append_disjoint (t d : List ℕ) (h : ∀ a ∈ d, a ∉ t) :
    ((t ++ d).filter fun s => s ∉ t.toFinset) = d := by
  rw [List.filter_append]
  have h2 : (t.filter fun s => s ∉ t.toFinset) = [] := by
    rw [List.filter_eq_nil_iff]; intro a ha; simp [ha]
  have h3 : (d.filter fun s => s ∉ t.toFinset) = d := by
    rw [List.filter_eq_self]; intro a ha; simpa using h a ha
  rw [h2, h3, List.nil_append]

/-- Filtering a duplicate-free list by "not among its first `m`
elements" drops exactly that prefix. -/
lemma filter_not_mem_take (l : List ℕ) (hl : l.Nodup) (m : ℕ) :
    (l.filter fun s => s ∉ (l.take m).toFinset) = l.drop m := by
  have hnd : (l.take m ++ l.drop m).Nodup := by
    rw [List.take_append_drop]; exact hl
  have hdisj : ∀ a ∈ l.drop m, a ∉ l.take m := by
    intro a hd ht
    exact (List.nodup_append.mp hnd).2.2 ht hd
  have h := filter_append_disjoint (l.take m) (l.drop m) hdisj
  rwa [List.take_append_drop] at h

/-- Excluding `stored` plus the first `m` still-missing identifiers
leaves exactly the remaining missing identifiers. -/
lemma filter_exclude_union (remote : List ℕ) (hnd : remote.Nodup) (stored : Finset ℕ) (m : ℕ) :
    (remote.filter fun s =>
        s ∉ stored ∪ ((remote.filter fun s => s ∉ stored).take m).toFinset)
      = (remote.filter fun s => s ∉ stored).drop m := by
  have hsplit :
      (remote.filter fun s =>
          s ∉ stored ∪ ((remote.filter fun s => s ∉ stored).take m).toFinset)
        = (remote.filter fun s => s ∉ stored).filter
            (fun s => s ∉ ((remote.filter fun s => s ∉ stored).take m).toFinset) := by
    rw [List.filter_filter]
    apply List.filter_congr
    intro a _
    by_cases h1 : a ∈ stored <;>
      by_cases h2 : a ∈ ((remote.filter fun s => s ∉ stored).take m).toFinset <;>
      simp [h1, h2]
  rw [hsplit, filter_not_mem_take _ (hnd.filter _) m]

/-- What one fetch returns when the exclusion set consists of `stored`
plus the first `m` identifiers missing from it. -/
lemma fetchPartition_eq (remote : List ℕ) (hnd : remote.Nodup) (stored : Finset ℕ)
    (m P : ℕ) :
    fetchPartition remote
        (stored ∪ ((remote.filter fun s => s ∉ stored).take m).toFinset) P
      = ((remote.filter fun s => s ∉ stored).drop m).take P := by
  unfold fetchPartition
  rw [filter_exclude_union remote hnd stored m]

lemma syncLoop_succ (remote : List ℕ) (P fuel : ℕ) (downloaded acc : Finset ℕ) :
    syncLoop remote P (fuel + 1) downloaded acc =
      if (fetchPartition remote downloaded P).length = 0 then
        (acc, [0])
      else if (fetchPartition remote downloaded P).length < P then
        (acc ∪ (fetchPartition remote downloaded P).toFinset,
         [(fetchPartition remote downloaded P).length])
      else
        ((syncLoop remote P fuel
            (downloaded ∪ (fetchPartition remote downloaded P).toFinset)
            (acc ∪ (fetchPartition remote downloaded P).toFinset)).1,
         (fetchPartition remote downloaded P).length ::
           (syncLoop remote P fuel
              (downloaded ∪ (fetchPartition remote downloaded P).toFinset)
              (acc ∪ (fetchPartition remote downloaded P).toFinset)).2) := rfl

/-- Invariant run of the download loop: starting from an exclusion set
made of `stored` plus the first `m` missing identifiers (`rem` lists
the identifiers missing from `stored`, in remote order), the loop
submits exactly the remaining `rem.length - m` identifiers, in
`(rem.length - m) / P` full partitions of `P` rows followed by one last
partition of `(rem.length - m) % P` rows. -/
lemma syncLoop_eq (remote : List ℕ) (hnd : remote.Nodup) (P : ℕ) (hP : 1 ≤ P)
    (stored : Finset ℕ) (rem : List ℕ)
    (hrem : (remote.filter fun s => s ∉ stored) = rem) :
    ∀ (fuel m : ℕ) (acc : Finset ℕ),
      rem.length - m < fuel * P →
      syncLoop remote P fuel (stored ∪ (rem.take m).toFinset) acc
        = (acc ∪ (rem.drop m).toFinset,
           List.replicate ((rem.length - m) / P) P ++ [(rem.length - m) % P]) := by
  intro fuel
  induction fuel with
  | zero =>
    intro m acc h
    rw [Nat.zero_mul] at h
    exact absurd h (Nat.not_lt_zero _)
  | succ fuel ih =>
    intro m acc h
    have hfetch : fetchPartition remote (stored ∪ (rem.take m).toFinset) P
        = (rem.drop m).take P := by
      subst hrem; exact fetchPartition_eq remote hnd stored m P
    rw [syncLoop_succ, hfetch]
    by_cases hml : rem.length ≤ m
    · -- nothing left: the fetch returns zero rows and the loop stops
      have hdrop : rem.drop m = [] := List.drop_eq_nil_of_le hml
      have hsub : rem.length - m = 0 := Nat.sub_eq_zero_of_le hml
      rw [hdrop, List.take_nil, hsub]
      simp
    · push_neg at hml
      by_cases hlp : rem.length - m < P
      · -- final short partition: fewer than P rows, loop stops after saving
        have htake : (rem.drop m).take P = rem.drop m := by
          apply List.take_of_length_le
          rw [List.length_drop]
          omega
        rw [htake, List.length_drop]
        rw [if_neg (by omega), if_pos hlp]
        rw [Nat.div_eq_of_lt hlp, Nat.mod_eq_of_lt hlp]
        simp
      · -- full partition of exactly P rows: save and continue
        push_neg at hlp
        have hlen : ((rem.drop m).take P).length = P := by
          rw [List.length_take, List.length_drop]
          omega
        rw [hlen, if_neg (by omega), if_neg (by omega)]
        have hunion : stored ∪ (rem.take m).toFinset ∪ ((rem.drop m).take P).toFinset
            = stored ∪ (rem.take (m + P)).toFinset := by
          rw [Finset.union_assoc, ← List.toFinset_append, ← List.take_add]
        have hcond : rem.length - (m + P) < fuel * P := by
          have hmul : (fuel + 1) * P = fuel * P + P := by ring
          rw [hmul] at h
          omega
        rw [hunion, ih (m + P) _ hcond]
        have hsetsplit : ((rem.drop m).take P).toFinset ∪ (rem.drop (m + P)).toFinset
            = (rem.drop m).toFinset := by
          have hdd : (rem.drop m).drop P = rem.drop (m + P) := List.drop_drop P m rem
          rw [← hdd, ← List.toFinset_append, List.take_append_drop]
        have hdiv : (rem.length - m) / P = (rem.length - (m + P)) / P + 1 := by
          rw [Nat.div_eq_sub_div (by omega) hlp, Nat.sub_sub]
        have hmod : (rem.length - m) % P = (rem.length - (m + P)) % P := by
          rw [Nat.mod_eq_sub_mod hlp, Nat.sub_sub]
        rw [Finset.union_assoc, hsetsplit, hdiv, hmod, List.replicate_succ]
        simp

/-- Closed form of one region run: the loop submits exactly the
identifiers missing from the exclusion set, fetching
`missing / P` full partitions of `P` rows plus one final partition of
`missing % P` rows (possibly zero). -/
lemma syncRegion_run (remote : List ℕ) (hnd : remote.Nodup) (P : ℕ) (hP : 1 ≤ P)
    (stored : Finset ℕ) :
    syncRegion remote P stored
      = ((remote.filter fun s => s ∉ stored).toFinset,
         List.replicate ((remote.filter fun s => s ∉ stored).length / P) P
           ++ [(remote.filter fun s => s ∉ stored).length % P]) := by
  have hfuel : (remote.filter fun s => s ∉ stored).length - 0
      < (remote.length + 1) * P := by
    have h1 : (remote.filter fun s => s ∉ stored).length ≤ remote.length :=
      List.length_filter_le _ remote
    have h2 : remote.length + 1 ≤ (remote.length + 1) * P :=
      Nat.le_mul_of_pos_right _ (by omega)
    omega
  have h := syncLoop_eq remote hnd P hP stored _ rfl (remote.length + 1) 0 ∅ hfuel
  unfold syncRegion
  simpa using h

end Gaia

/-! ## Helper lemmas for the persistence layer -/

namespace DB

lemma save_stars_code_cons (t : List StarRow) (serial : ℕ) (a : ℕ × ℤ)
    (rest : List (ℕ × ℤ)) :
    save_stars_code t serial (a :: rest)
      = save_stars_code
          (if hasStarKey t serial a.1 then t else t ++ [⟨serial, a.1, a.2⟩])
          serial rest := rfl

/-- `save_stars_code` only ever appends rows: existing rows are
preserved verbatim, in place. -/
lemma save_stars_code_append :
    ∀ (batch : List (ℕ × ℤ)) (t : List StarRow) (serial : ℕ),
      ∃ new, save_stars_code t serial batch = t ++ new := by
  intro batch
  induction batch with
  | nil => intro t serial; exact ⟨[], by simp [save_stars_code]⟩
  | cons a rest ih =>
    intro t serial
    rw [save_stars_code_cons]
    by_cases h : hasStarKey t serial a.1
    · rw [if_pos h]; exact ih t serial
    · rw [if_neg h]
      obtain ⟨new, hnew⟩ := ih (t ++ [⟨serial, a.1, a.2⟩]) serial
      exact ⟨⟨serial, a.1, a.2⟩ :: new, by rw [hnew, List.append_assoc]; rfl⟩

lemma hasStarKey_append_left (t u : List StarRow) (k s : ℕ)
    (h : hasStarKey t k s = true) : hasStarKey (t ++ u) k s = true := by
  unfold hasStarKey at *
  rw [List.any_append, h, Bool.true_or]

lemma save_stars_code_mono_key (batch : List (ℕ × ℤ)) (t : List StarRow)
    (serial k s : ℕ) (h : hasStarKey t k s = true) :
    hasStarKey (save_stars_code t serial batch) k s = true := by
  obtain ⟨new, hnew⟩ := save_stars_code_append batch t serial
  rw [hnew]
  exact hasStarKey_append_left t new k s h

/-- After a batch is saved, every key of the batch is present. -/
lemma save_stars_code_key_present :
    ∀ (batch : List (ℕ × ℤ)) (t : List StarRow) (serial : ℕ) (star : ℕ × ℤ),
      star ∈ batch →
      hasStarKey (save_stars_code t serial batch) serial star.1 = true := by
  intro batch
  induction batch with
  | nil => intro t serial star h; simp at h
  | cons a rest ih =>
    intro t serial star hmem
    rw [save_stars_code_cons]
    rcases List.mem_cons.mp hmem with heq | hrest
    · subst heq
      apply save_stars_code_mono_key
      by_cases h : hasStarKey t serial star.1
      · rw [if_pos h]; exact h
      · rw [if_neg h]
        unfold hasStarKey
        rw [List.any_append]
        simp
    · exact ih _ serial star hrest

/-- A batch whose keys are all already stored is a complete no-op. -/
lemma save_stars_code_noop :
    ∀ (batch : List (ℕ × ℤ)) (t : List StarRow) (serial : ℕ),
      (∀ star ∈ batch, hasStarKey t serial star.1 = true) →
      save_stars_code t serial batch = t := by
  intro batch
  induction batch with
  | nil => intro t serial _; rfl
  | cons a rest ih =>
    intro t serial hall
    rw [save_stars_code_cons, if_pos (hall a (List.mem_cons_self a rest))]
    exact ih t serial fun star hs => hall star (List.mem_cons_of_mem a hs)

end DB

/-! ## Helper lemmas for the query builder -/

namespace Gaia

lemma spatialClause_circle (region : Region) (d extra : ℚ)
    (hd : region.diam = some d) :
    spatialClause region extra
      = .ok (.circle region.ra region.dec (d * extra / 2)) := by
  unfold spatialClause
  rw [hd]

lemma spatialClause_box (region : Region) (w h extra : ℚ)
    (hd : region.diam = none) (hw : region.width = some w)
    (hh : region.height = some h) :
    spatialClause region extra
      = .ok (.box region.ra region.dec (w * extra) (h * extra)) := by
  unfold spatialClause
  rw [hd, hw, hh]

lemma compose_query_src_ok (P : Option ℕ) (region : Region) (extra : ℚ)
    (exclude : Finset ℕ) (sp : SpatialClause)
    (hsp : spatialClause region extra = .ok sp) :
    compose_query_src P region extra exclude
      = .ok ⟨P, if 0 < exclude.card then .tempTableJoin region.name else .noExclusion,
             sp, true⟩ := by
  unfold compose_query_src
  rw [hsp]

lemma compose_query_code_ok (logged : Bool) (region : Region) (extra : ℚ)
    (exclude : Finset ℕ) (sp : SpatialClause)
    (hsp : spatialClause region extra = .ok sp) :
    compose_query_code logged region extra exclude
      = .ok ⟨none,
             if 0 < exclude.card then
               if logged then .tempTableJoin region.name else .inlineNotIn exclude
             else .noExclusion,
             sp, true⟩ := by
  unfold compose_query_code
  rw [hsp]

/-- `spatialClause` never fails on a region that carries a shape
descriptor; conversely every successful query carries a spatial clause
produced by it. -/
lemma compose_query_src_inv (P : Option ℕ) (region : Region) (extra : ℚ)
    (exclude : Finset ℕ) (q : ComposedQuery)
    (h : compose_query_src P region extra exclude = .ok q) :
    ∃ sp, spatialClause region extra = .ok sp ∧
      q = ⟨P, if 0 < exclude.card then .tempTableJoin region.name else .noExclusion,
           sp, true⟩ := by
  unfold compose_query_src at h
  cases hsp : spatialClause region extra with
  | error e => rw [hsp] at h; exact absurd h (by simp)
  | ok sp =>
    rw [hsp] at h
    exact ⟨sp, rfl, by cases h; rfl⟩

lemma compose_query_code_inv (logged : Bool) (region : Region) (extra : ℚ)
    (exclude : Finset ℕ) (q : ComposedQuery)
    (h : compose_query_code logged region extra exclude = .ok q) :
    ∃ sp, spatialClause region extra = .ok sp ∧
      q = ⟨none,
           if 0 < exclude.card then
             if logged then .tempTableJoin region.name else .inlineNotIn exclude
           else .noExclusion,
           sp, true⟩ := by
  unfold compose_query_code at h
  cases hsp : spatialClause region extra with
  | error e => rw [hsp] at h; exact absurd h (by simp)
  | ok sp =>
    rw [hsp] at h
    exact ⟨sp, rfl, by cases h; rfl⟩

end Gaia

/-! ## Claim theorems -/

/-- Claim C1 (amended).  For a region whose true matching record count
is `N` and any partition size `P ≥ 1`, starting with nothing stored,
`Gaia._download_and_save` performs exactly `N / P + 1` fetches — that is
`⌈N/P⌉` fetches when `P` does not divide `N`, and one more than
`⌈N/P⌉` when `P` divides `N` (including `N = 0`): the loop only stops
after a fetch of strictly fewer than `P` rows, so on an exact multiple
it issues one extra, empty fetch.  The fetch sizes are `N / P` full
partitions of `P` rows followed by one final fetch of `N % P < P` rows,
and exactly the `N` matching records are handed to the persistence
layer across the loop. -/
theorem gaia_download_loop_partition_counts (remote : List ℕ) (P : ℕ)
    (hnd : remote.Nodup) (hP : 1 ≤ P) :
    (Gaia.syncRegion remote P ∅).1 = remote.toFinset ∧
    (Gaia.syncRegion remote P ∅).1.card = remote.length ∧
    (Gaia.syncRegion remote P ∅).2
      = List.replicate (remote.length / P) P ++ [remote.length % P] ∧
    (Gaia.syncRegion remote P ∅).2.length = remote.length / P + 1 ∧
    remote.length % P < P := by
  have hfil : (remote.filter fun s => s ∉ (∅ : Finset ℕ)) = remote := by simp
  have hrun := Gaia.syncRegion_run remote hnd P hP ∅
  rw [hfil] at hrun
  refine ⟨?_, ?_, ?_, ?_, ?_⟩
  · rw [hrun]
  · rw [hrun]; exact List.toFinset_card_of_nodup hnd
  · rw [hrun]
  · rw [hrun]; simp
  · exact Nat.mod_lt _ (by omega)

/-- Witness for C1 at a concrete input: three records, partition size
two, gives fetch sizes `[2, 1]` and all three records submitted. -/
theorem gaia_download_loop_partition_counts_witness :
    ([3, 1, 2] : List ℕ).Nodup ∧ 1 ≤ 2 ∧
    (Gaia.syncRegion [3, 1, 2] 2 ∅).2 = [2, 1] ∧
    (Gaia.syncRegion [3, 1, 2] 2 ∅).1.card = 3 := by
  have h := gaia_download_loop_partition_counts [3, 1, 2] 2 (by decide) (by decide)
  refine ⟨by decide, by decide, ?_, ?_⟩
  · rw [h.2.2.1]; rfl
  · rw [h.2.1]; rfl

/-- Counterexample to C1 as stated: with `N = 2` matching records and
`P = 2`, the loop issues two fetches (sizes `[2, 0]`), not
`⌈2/2⌉ = 1`. -/
theorem gaia_download_loop_count_not_ceil :
    (Gaia.syncRegion [10, 20] 2 ∅).2 = [2, 0] ∧
    (Gaia.syncRegion [10, 20] 2 ∅).2.length ≠ (2 + 2 - 1) / 2 := by
  refine ⟨by decide, by decide⟩

/-- Claim C2 (code bug in the src/ pipeline).  The claim would hold if
committed identifiers were rebuilt by the second run, and it does hold
once the store contains them: the run then issues one empty fetch and
submits nothing (last two conjuncts).  But in `src/`,
`Gaia._save_stars` calls `DB.save_stars` with a `columns` keyword the
method does not accept, so every save raises `TypeError` (swallowed by
the surrounding `except`) and nothing is ever committed: after a first
run over a region with records `{1, 2}` the store is still empty, the
second run rebuilds an empty exclusion set via `get_stars_source_id`
and re-downloads both records instead of completing as a no-op. -/
theorem gaia_src_second_run_re_downloads :
    (Gaia.syncRegion [1, 2] 5 ∅).1 = ({1, 2} : Finset ℕ) ∧
    (Gaia.syncRegion [1, 2] 5 ∅).2 = [2] ∧
    Gaia.save_stars_call_src [] 7 [(1, 0), (2, 0)] = ([], some PyError.typeError) ∧
    DB.get_stars_source_id [] 7 = ∅ ∧
    (Gaia.syncRegion [1, 2] 5 ∅).2 ≠ [0] ∧
    (Gaia.syncRegion [1, 2] 5 ({1, 2} : Finset ℕ)).1 = ∅ ∧
    (Gaia.syncRegion [1, 2] 5 ({1, 2} : Finset ℕ)).2 = [0] := by
  refine ⟨by decide, by decide, rfl, by decide, by decide, by decide, by decide⟩

/-- Counterexample to C3 as stated: re-submitting a row whose
`(region_id, source_id)` key is already stored is silently skipped by
the `code/` version but raises in the `src/` version (`to_sql` append
with no conflict handling violates the primary key). -/
theorem save_stars_src_duplicate_raises :
    DB.save_stars_src [⟨1, 7, 0⟩] 1 [(7, 0)] = .error .uniqueViolation ∧
    DB.save_stars_code [⟨1, 7, 0⟩] 1 [(7, 0)] = [⟨1, 7, 0⟩] := by
  exact ⟨rfl, rfl⟩

/-- Claim C3 (amended).  In the `code/` version `DB.save_stars` has
insert-or-ignore semantics keyed by `(region_id, source_id)`: a row
whose key already exists is silently skipped, existing rows are
preserved in place (the table only grows by a suffix), and re-submitting
the same batch leaves the table unchanged.  In the `src/` version
`DB.save_stars` appends without conflict handling, and a batch
containing an already-stored key raises instead of being skipped. -/
theorem save_stars_insert_or_ignore :
    (∀ (t : List DB.StarRow) (serial sid : ℕ) (p : ℤ),
        DB.hasStarKey t serial sid = true →
        DB.save_stars_code t serial [(sid, p)] = t) ∧
    (∀ (t : List DB.StarRow) (serial : ℕ) (batch : List (ℕ × ℤ)),
        ∃ new, DB.save_stars_code t serial batch = t ++ new) ∧
    (∀ (t : List DB.StarRow) (serial : ℕ) (batch : List (ℕ × ℤ)),
        DB.save_stars_code (DB.save_stars_code t serial batch) serial batch
          = DB.save_stars_code t serial batch) ∧
    (∀ (t : List DB.StarRow) (serial : ℕ) (batch : List (ℕ × ℤ)),
        (∃ star ∈ batch, DB.hasStarKey t serial star.1 = true) →
        DB.save_stars_src t serial batch = .error .uniqueViolation) := by
  refine ⟨?_, ?_, ?_, ?_⟩
  · intro t serial sid p h
    rw [DB.save_stars_code_cons, if_pos h]
    rfl
  · intro t serial batch
    exact DB.save_stars_code_append batch t serial
  · intro t serial batch
    exact DB.save_stars_code_noop batch _ serial fun star hs =>
      DB.save_stars_code_key_present batch t serial star hs
  · rintro t serial batch ⟨star, hmem, hkey⟩
    unfold DB.save_stars_src
    rw [if_pos]
    left
    rw [List.any_eq_true]
    exact ⟨⟨serial, star.1, star.2⟩, List.mem_map.mpr ⟨star, hmem, rfl⟩, hkey⟩

/-- Witness for C3: concrete duplicate-key skip (code/) and
duplicate-key error (src/). -/
theorem save_stars_insert_or_ignore_witness :
    DB.save_stars_code [⟨2, 9, 5⟩] 2 [(9, 1)] = [⟨2, 9, 5⟩] ∧
    DB.save_stars_src [⟨2, 9, 5⟩] 2 [(9, 1), (11, 0)] = .error .uniqueViolation := by
  constructor
  · exact save_stars_insert_or_ignore.1 [⟨2, 9, 5⟩] 2 9 1 (by decide)
  · exact save_stars_insert_or_ignore.2.2.2 [⟨2, 9, 5⟩] 2 [(9, 1), (11, 0)]
      ⟨(9, 1), by decide, by decide⟩


/-- Counterexample to C4 as stated: in the `src/` version an
unauthenticated downloader with a non-empty exclusion set still
materializes the set as an uploaded temporary table (`_compose_query`
never consults `self._logged`), and no inline `NOT IN` predicate is
produced: the unauthenticated (`logged = false`) fetch trace shows the
table upload. -/
theorem src_compose_materializes_without_auth :
    (∃ q, Gaia.compose_query_src (some 500000) M45 1 {5} = .ok q ∧
        q.exclusion = .tempTableJoin "M45" ∧
        ∀ ids, q.exclusion ≠ .inlineNotIn ids) ∧
    (Gaia.download_partition_src ⟨false, true, false, false, false, true⟩ "M45").1
      = [.uploadTable "M45", .launchJob] := by
  constructor
  · refine ⟨_, Gaia.compose_query_src_ok (some 500000) M45 1 {5} _
      (Gaia.spatialClause_circle M45 2 1 rfl), ?_, ?_⟩
    · show (if 0 < ({5} : Finset ℕ).card then
          Gaia.ExclusionClause.tempTableJoin M45.name else .noExclusion) = _
      rw [if_pos (by decide)]
      rfl
    · intro ids
      show (if 0 < ({5} : Finset ℕ).card then
          Gaia.ExclusionClause.tempTableJoin M45.name else .noExclusion) ≠ _
      rw [if_pos (by decide)]
      simp
  · rfl

/-- Claim C4 (amended).  In the `code/` version the exclusion set is
materialized as a remote temporary table exactly when it is non-empty
and the session is authenticated; when it is non-empty and the session
is unauthenticated it is expressed as an inline `source_id NOT IN (…)`
predicate; when it is empty neither form appears.  In the `src/`
version the set is uploaded as a temporary table whenever it is
non-empty — regardless of authentication — and an inline `NOT IN`
predicate is never produced. -/
theorem compose_query_exclusion_modes :
    (∀ (logged : Bool) (region : Region) (extra : ℚ) (exclude : Finset ℕ)
        (q : Gaia.ComposedQuery),
        Gaia.compose_query_code logged region extra exclude = .ok q →
        (q.exclusion = .tempTableJoin region.name ↔ 0 < exclude.card ∧ logged = true) ∧
        (q.exclusion = .inlineNotIn exclude ↔ 0 < exclude.card ∧ logged = false) ∧
        (q.exclusion = .noExclusion ↔ exclude.card = 0)) ∧
    (∀ (P : Option ℕ) (region : Region) (extra : ℚ) (exclude : Finset ℕ)
        (q : Gaia.ComposedQuery),
        Gaia.compose_query_src P region extra exclude = .ok q →
        (q.exclusion = .tempTableJoin region.name ↔ 0 < exclude.card) ∧
        ∀ ids, q.exclusion ≠ .inlineNotIn ids) := by
  constructor
  · intro logged region extra exclude q h
    obtain ⟨sp, _, hq⟩ := Gaia.compose_query_code_inv logged region extra exclude q h
    subst hq
    by_cases hc : 0 < exclude.card
    · have hne : exclude ≠ ∅ := Finset.nonempty_iff_ne_empty.mp (Finset.card_pos.mp hc)
      cases logged <;> simp [hc, hne]
    · have h0 : exclude.card = 0 := by omega
      simp [hc, h0]
  · intro P region extra exclude q h
    obtain ⟨sp, _, hq⟩ := Gaia.compose_query_src_inv P region extra exclude q h
    subst hq
    by_cases hc : 0 < exclude.card <;> simp [hc]

/-- Witness for C4 at concrete inputs: authenticated `code/` call joins
against the temp table, unauthenticated `code/` call uses the inline
predicate, empty-set call uses neither. -/
theorem compose_query_exclusion_modes_witness :
    (∃ q, Gaia.compose_query_code true M45 1 {5} = .ok q ∧
        q.exclusion = .tempTableJoin "M45") ∧
    (∃ q, Gaia.compose_query_code false M45 1 {5} = .ok q ∧
        q.exclusion = .inlineNotIn {5}) ∧
    (∃ q, Gaia.compose_query_code true M45 1 ∅ = .ok q ∧
        q.exclusion = .noExclusion) := by
  have hsp := Gaia.spatialClause_circle M45 2 1 rfl
  refine ⟨⟨_, Gaia.compose_query_code_ok true M45 1 {5} _ hsp, ?_⟩,
          ⟨_, Gaia.compose_query_code_ok false M45 1 {5} _ hsp, ?_⟩,
          ⟨_, Gaia.compose_query_code_ok true M45 1 ∅ _ hsp, ?_⟩⟩
  · exact ((compose_query_exclusion_modes.1 true M45 1 {5} _
      (Gaia.compose_query_code_ok true M45 1 {5} _ hsp)).1).mpr ⟨by decide, rfl⟩
  · exact ((compose_query_exclusion_modes.1 false M45 1 {5} _
      (Gaia.compose_query_code_ok false M45 1 {5} _ hsp)).2.1).mpr ⟨by decide, rfl⟩
  · exact ((compose_query_exclusion_modes.1 true M45 1 ∅ _
      (Gaia.compose_query_code_ok true M45 1 ∅ _ hsp)).2.2).mpr (by decide)

/-- Counterexample to C5 as stated: a successful `src/` fetch with a
non-empty exclusion set creates the temporary exclusion table (uploaded
with the job through `tap_upload`) but issues zero deletion calls for
it; the only cleanup is the removal of the async job, and that only
because the session is authenticated and `remove_jobs` is set. -/
theorem src_fetch_issues_no_table_deletion :
    (Gaia.download_partition_src ⟨true, true, false, false, false, true⟩ "M45").1
      = [.uploadTable "M45", .launchJob, .removeJob] ∧
    (Gaia.download_partition_src ⟨true, true, false, false, false, true⟩ "M45").1.count
      (.deleteTable "M45") = 0 := by
  exact ⟨rfl, rfl⟩

/-- Claim C5 (amended).  In the `code/` version, every fetch that
created a temporary remote exclusion table (upload succeeded) issues
exactly one `delete_user_table` call for it, placed after the job
launch and before the fetch returns — both when the job succeeds and
when it fails — and a fetch that created no table issues no deletion.
In the `src/` version no table-deletion call is ever issued: the
exclusion table travels with the async job, and cleanup consists only
of the conditional removal of the job itself. -/
theorem temp_table_guaranteed_release :
    (∀ (env : Gaia.FetchEnv) (name : String),
        Gaia.tableCreated_code env = true →
        (Gaia.download_stars_code env name).1
          = [.uploadTable name, .launchJob, .deleteTable name]
              ++ (if Gaia.fetchSucceeds env = true then [.removeJob] else [])) ∧
    (∀ (env : Gaia.FetchEnv) (name : String),
        Gaia.tableCreated_code env = false →
        (Gaia.download_stars_code env name).1.count (.deleteTable name) = 0) ∧
    (∀ (env : Gaia.FetchEnv) (name : String),
        (Gaia.download_partition_src env name).1.count (.deleteTable name) = 0) := by
  refine ⟨?_, ?_, ?_⟩
  · rintro ⟨l, e, u, lf, rf, rj⟩ name h
    simp only [Gaia.tableCreated_code] at h
    cases l <;> cases e <;> cases u <;> simp_all [Gaia.download_stars_code,
      Gaia.tableCreated_code, Gaia.fetchSucceeds]
  · rintro ⟨l, e, u, lf, rf, rj⟩ name h
    simp only [Gaia.tableCreated_code] at h
    cases l <;> cases e <;> cases u <;> cases lf <;> cases rf <;>
      simp_all [Gaia.download_stars_code, Gaia.tableCreated_code, Gaia.fetchSucceeds,
        List.count_cons]
  · rintro ⟨l, e, u, lf, rf, rj⟩ name
    cases l <;> cases e <;> cases lf <;> cases rj <;>
      simp [Gaia.download_partition_src, Gaia.fetchSucceeds, List.count_cons]

/-- Witness for C5: a `code/` fetch that created the table and whose
job then failed still deletes the table, exactly once, right after the
job. -/
theorem temp_table_guaranteed_release_witness :
    (Gaia.download_stars_code ⟨true, true, false, true, false, true⟩ "M45").1
      = [.uploadTable "M45", .launchJob, .deleteTable "M45"] := by
  have h := temp_table_guaranteed_release.1 ⟨true, true, false, true, false, true⟩
    "M45" (by decide)
  simpa using h

/-- Claim C6.  For every region and every extra-size multiplier, the
query produced by `_compose_query` (either version) restricts rows to a
circle centered at the coordinates of the region with radius
`diam * extra_size / 2` when the region is circular, or to a box of
`width * extra_size` by `height * extra_size` centered at the
coordinates of the region when it is rectangular, and orders the result by
`source_id` ascending. -/
theorem compose_query_spatial_filter (region : Region) (extra : ℚ)
    (exclude : Finset ℕ) (P : Option ℕ) (logged : Bool) :
    (∀ d, region.diam = some d →
      ∀ q, (Gaia.compose_query_src P region extra exclude = .ok q ∨
            Gaia.compose_query_code logged region extra exclude = .ok q) →
        q.spatial = .circle region.ra region.dec (d * extra / 2) ∧
        q.orderBySourceIdAsc = true) ∧
    (∀ w h, region.diam = none → region.width = some w → region.height = some h →
      ∀ q, (Gaia.compose_query_src P region extra exclude = .ok q ∨
            Gaia.compose_query_code logged region extra exclude = .ok q) →
        q.spatial = .box region.ra region.dec (w * extra) (h * extra) ∧
        q.orderBySourceIdAsc = true) := by
  constructor
  · intro d hd q hq
    have hsp := Gaia.spatialClause_circle region d extra hd
    rcases hq with hq | hq
    · rw [Gaia.compose_query_src_ok P region extra exclude _ hsp] at hq
      cases hq
      exact ⟨rfl, rfl⟩
    · rw [Gaia.compose_query_code_ok logged region extra exclude _ hsp] at hq
      cases hq
      exact ⟨rfl, rfl⟩
  · intro w h hd hw hh q hq
    have hsp := Gaia.spatialClause_box region w h extra hd hw hh
    rcases hq with hq | hq
    · rw [Gaia.compose_query_src_ok P region extra exclude _ hsp] at hq
      cases hq
      exact ⟨rfl, rfl⟩
    · rw [Gaia.compose_query_code_ok logged region extra exclude _ hsp] at hq
      cases hq
      exact ⟨rfl, rfl⟩

/-- Witness for C6: the Pleiades region (`diam` 2°) with
`extra_size = 3/2` yields a circle of radius `3/2` around its
coordinates, ordered by `source_id`. -/
theorem compose_query_spatial_filter_witness :
    ∃ q, Gaia.compose_query_src (some 500000) M45 (3/2) ∅ = .ok q ∧
      q.spatial = .circle (567/10) (241/10) (3/2) ∧
      q.orderBySourceIdAsc = true := by
  refine ⟨_, Gaia.compose_query_src_ok (some 500000) M45 (3/2) ∅ _
      (Gaia.spatialClause_circle M45 2 (3/2) rfl), ?_⟩
  have h := (compose_query_spatial_filter M45 (3/2) ∅ (some 500000) true).1 2 rfl _
    (Or.inl (Gaia.compose_query_src_ok (some 500000) M45 (3/2) ∅ _
      (Gaia.spatialClause_circle M45 2 (3/2) rfl)))
  refine ⟨?_, h.2⟩
  rw [h.1]
  norm_num [M45]

/-- Claim C7.  `download_and_save` processes every region of the input
inside a per-region `try`/`except`: every region is started, a failing
region contributes an error log entry naming the region and the cause,
processing continues with the remaining regions, and the final event is
always the logout. -/
theorem download_and_save_isolates_failures
    (regions : List Region) (runRegion : Region → Except String Unit) :
    (∀ r ∈ regions,
        Gaia.SyncEvent.startRegion r.name ∈ Gaia.download_and_save regions runRegion) ∧
    (∀ r ∈ regions, ∀ cause, runRegion r = .error cause →
        Gaia.SyncEvent.regionError r.name cause ∈ Gaia.download_and_save regions runRegion) ∧
    (Gaia.download_and_save regions runRegion).getLast? = some .loggedOut := by
  refine ⟨?_, ?_, ?_⟩
  · intro r hr
    apply List.mem_append_left
    exact List.mem_flatMap.mpr ⟨r, hr, by simp⟩
  · intro r hr cause hc
    apply List.mem_append_left
    refine List.mem_flatMap.mpr ⟨r, hr, ?_⟩
    rw [hc]
    simp
  · exact List.getLast?_concat _

/-- Witness for C7: with the first of two regions failing, its error is
logged, the second region is still started, and logout is last. -/
theorem download_and_save_isolates_failures_witness :
    Gaia.SyncEvent.regionError "M45" "boom" ∈
      Gaia.download_and_save [M45, NGC7000]
        (fun r => if r.name = "M45" then .error "boom" else .ok ()) ∧
    Gaia.SyncEvent.startRegion "NGC 7000" ∈
      Gaia.download_and_save [M45, NGC7000]
        (fun r => if r.name = "M45" then .error "boom" else .ok ()) ∧
    (Gaia.download_and_save [M45, NGC7000]
        (fun r => if r.name = "M45" then .error "boom" else .ok ())).getLast?
      = some .loggedOut := by
  have h := download_and_save_isolates_failures [M45, NGC7000]
    (fun r => if r.name = "M45" then .error "boom" else .ok ())
  refine ⟨?_, ?_, h.2.2⟩
  · exact h.2.1 M45 (by simp) "boom" (by simp [M45])
  · exact h.1 NGC7000 (by simp)

/-- Counterexample to C8 as stated: for a *rectangular* region whose
name already exists in the table, `save_regions` does not perform the
claimed upsert at all — reading `region.diam` raises `AttributeError`,
so no serial is returned or assigned (see C10). -/
theorem save_regions_existing_name_rect_raises :
    DB.save_regions sampleRegionsTable NGC7000 = .error .attributeError ∧
    (sampleRegionsTable.rows.find? fun r => r.name = NGC7000.name).isSome = true := by
  exact ⟨rfl, rfl⟩

/-- Claim C8 (amended).  For every *circular* region whose name already
exists in the regions table, `save_regions` performs an upsert that
rewrites only the opaque `properties` column of the existing row: every
row keeps its `id`, coordinates and shape columns (`ra`, `dec`, `diam`,
`width`, `height`), rows with other names are untouched, no row is
added or removed, and the serial id of the existing row is returned and
assigned to the in-memory region. -/
theorem save_regions_conflict_updates_only_properties
    (tbl : DB.RegionsTable) (region : Region) (d : ℚ) (row : DB.RegionRow)
    (hd : region.diam = some d)
    (hrow : tbl.rows.find? (fun r => r.name = region.name) = some row) :
    ∃ tbl' region',
      DB.save_regions tbl region = .ok (tbl', region') ∧
      region' = { region with serial := some row.id } ∧
      tbl'.nextId = tbl.nextId ∧
      (tbl'.rows.map fun r => (r.id, r.name, r.ra, r.dec, r.diam, r.width, r.height))
        = (tbl.rows.map fun r => (r.id, r.name, r.ra, r.dec, r.diam, r.width, r.height)) ∧
      (∀ r ∈ tbl'.rows, r.name = region.name → r.properties = region.properties) ∧
      (∀ r ∈ tbl'.rows, r.name ≠ region.name → r ∈ tbl.rows) := by
  have hup : DB.upsertRegionRow tbl region.name region.ra region.dec d region.properties
      = (⟨tbl.rows.map fun r =>
            if r.name = region.name then { r with properties := region.properties } else r,
          tbl.nextId⟩, row.id) := by
    unfold DB.upsertRegionRow
    rw [hrow]
  have hsave : DB.save_regions tbl region
      = .ok (⟨tbl.rows.map fun r =>
            if r.name = region.name then { r with properties := region.properties } else r,
          tbl.nextId⟩, { region with serial := some row.id }) := by
    unfold DB.save_regions
    rw [hd]
    dsimp only
    rw [hup]
  refine ⟨_, _, hsave, rfl, rfl, ?_, ?_, ?_⟩
  · rw [List.map_map]
    apply List.map_congr_left
    intro r _
    by_cases h : r.name = region.name <;> simp [h]
  · intro r hr hname
    obtain ⟨r0, hr0, hupd⟩ := List.mem_map.mp hr
    by_cases h : r0.name = region.name
    · rw [if_pos h] at hupd
      rw [← hupd]
    · rw [if_neg h] at hupd
      rw [← hupd] at hname
      exact absurd hname h
  · intro r hr hname
    obtain ⟨r0, hr0, hupd⟩ := List.mem_map.mp hr
    by_cases h : r0.name = region.name
    · rw [if_pos h] at hupd
      rw [← hupd] at hname
      exact absurd h hname
    · rw [if_neg h] at hupd
      rw [← hupd]
      exact hr0

/-- Witness for C8: upserting a circular region whose name matches the
stored row assigns the stored serial 3 and succeeds. -/
theorem save_regions_conflict_witness :
    ∃ tbl' region',
      DB.save_regions sampleRegionsTable NGC7000circ = .ok (tbl', region') ∧
      region' = { NGC7000circ with serial := some 3 } := by
  obtain ⟨tbl', region', h1, h2, _⟩ :=
    save_regions_conflict_updates_only_properties sampleRegionsTable NGC7000circ 3
      sampleRegionRow rfl rfl
  exact ⟨tbl', region', h1, h2⟩

/-- Claim C9.  `Region.__init__` raises `ValueError` exactly when the
arguments do not describe exactly one shape: when neither `diam` nor
both of `width`/`height` are given, when `diam` is combined with
`width` or `height`, and when only one of `width`/`height` is given.
Consequently every successfully constructed region carries either the
`diam` attribute (and neither `width` nor `height`) or both the `width`
and `height` attributes (and no `diam`), never both descriptors. -/
theorem region_init_exactly_one_shape (name : String) (ra dec : ℚ)
    (diam height width : Option ℚ) (serial : Option ℕ) :
    ((∃ msg, Region.init name ra dec diam height width serial = .error (.valueError msg)) ↔
      ¬((diam.isSome ∧ height = none ∧ width = none) ∨
        (diam = none ∧ height.isSome ∧ width.isSome))) ∧
    (∀ r, Region.init name ra dec diam height width serial = .ok r →
      (r.diam.isSome ∧ r.width = none ∧ r.height = none) ∨
      (r.diam = none ∧ r.width.isSome ∧ r.height.isSome)) := by
  cases diam <;> cases height <;> cases width <;>
    constructor <;>
    simp [Region.init]

/-- Witness for C9 at concrete inputs: a diameter-only construction
succeeds with a circular shape, and combining `diam` with `width` and
`height` raises `ValueError`. -/
theorem region_init_exactly_one_shape_witness :
    ((∃ r, Region.init "a" 0 0 (some 1) none none none = .ok r ∧
        r.diam.isSome ∧ r.width = none ∧ r.height = none) ∧
     ∃ msg, Region.init "b" 0 0 (some 1) (some 2) (some 3) none
        = .error (.valueError msg)) := by
  constructor
  · have h := (region_init_exactly_one_shape "a" 0 0 (some 1) none none none).2
    refine ⟨⟨"a", 0, 0, some 1, none, none, [], none⟩, rfl, ?_⟩
    have := h ⟨"a", 0, 0, some 1, none, none, [], none⟩ rfl
    rcases this with h1 | h1
    · exact h1
    · exact absurd h1.1 (by simp)
  · exact (region_init_exactly_one_shape "b" 0 0 (some 1) (some 2) (some 3) none).1.mpr
      (by simp)

/-- Claim C10.  `save_regions` reads `region.diam` unconditionally when
building the row to insert, so for every rectangular region (no `diam`
attribute) the call raises `AttributeError` before any row is written
and nothing is persisted; every region that `save_regions` accepts is
circular — even though the `regions` relation has `width`/`height`
columns and `get_regions` reconstructs rectangular regions from them. -/
theorem save_regions_requires_diam :
    (∀ (tbl : DB.RegionsTable) (region : Region), region.diam = none →
        DB.save_regions tbl region = .error .attributeError) ∧
    (∀ (tbl : DB.RegionsTable) (region : Region) (out : DB.RegionsTable × Region),
        DB.save_regions tbl region = .ok out → region.diam.isSome = true) ∧
    (∀ (row : DB.RegionRow) (w h : ℚ),
        row.diam = none → row.width = some w → row.height = some h →
        DB.regionFromRow row
          = .ok ⟨row.name, row.ra, row.dec, none, some w, some h, [], none⟩) := by
  refine ⟨?_, ?_, ?_⟩
  · intro tbl region h
    unfold DB.save_regions
    rw [h]
  · intro tbl region out h
    cases hd : region.diam with
    | none =>
      unfold DB.save_regions at h
      rw [hd] at h
      exact absurd h (by simp)
    | some d => rfl
  · intro row w h hd hw hh
    unfold DB.regionFromRow
    rw [hd, hw, hh]
    simp [Region.init]

/-- Witness for C10: saving the rectangular region raises
`AttributeError` on an empty table, and `get_regions` reconstructs a
rectangular region from a row with NULL `diam`. -/
theorem save_regions_requires_diam_witness :
    DB.save_regions ⟨[], 0⟩ NGC7000 = .error .attributeError ∧
    DB.regionFromRow ⟨9, "R", 1, 2, none, some 4, some 5, []⟩
      = .ok ⟨"R", 1, 2, none, some 4, some 5, [], none⟩ := by
  constructor
  · exact save_regions_requires_diam.1 ⟨[], 0⟩ NGC7000 rfl
  · exact save_regions_requires_diam.2.2 ⟨9, "R", 1, 2, none, some 4, some 5, []⟩ 4 5
      rfl rfl rfl
